import Mathlib

/-!
Verification development for the Shelly Dimmer WebSocket client
(`custom_components/shelly_dimmer_ws/websocket_client.py`).

The Python source is shallowly embedded below: decoded JSON values become an
inductive type, `json.loads` becomes a fuel-bounded recursive-descent decoder,
and each method of `ShellyWebSocketClient` that the properties concern becomes
an explicit Lean function or step relation on a record of the client's mutable
fields.  Points where the Python code would raise an exception that escapes the
method are modelled by `Option`/dedicated error constructors.
-/

/-- A decoded JSON value, as produced by Python's `json.loads`.
`num` is an integer literal; `float` represents a decimal literal
`mantissa * 10 ^ exp10` (JSON numbers with a fraction or exponent part);
`special` covers the non-standard tokens `NaN`, `Infinity`, `-Infinity`
that Python's decoder accepts.  Objects keep their key/value pairs in
source order; as in a Python dict built by `json.loads`, a duplicated key
is resolved to its last occurrence by the lookup function `jget`. -/
inductive Json where
  | null
  | bool (b : Bool)
  | num (n : Int)
  | float (mantissa : Int) (exp10 : Int)
  | special (s : String)
  | str (s : String)
  | arr (elems : List Json)
  | obj (fields : List (String × Json))

/-- Python `dict` lookup on the fields of a decoded JSON object: the last
binding of a duplicated key wins (as in `json.loads`). -/
def jget (fields : List (String × Json)) (key : String) : Option Json :=
  match fields with
  | [] => none
  | (k, v) :: rest =>
    match jget rest key with
    | some v2 => some v2
    | none => if k = key then some v else none

/-- Python truthiness of a decoded JSON value (`if msg_id ...`):
`None`, `False`, `0`, `0.0`, `""`, `[]`, `{}` are falsy; everything else,
including `NaN` and the infinities, is truthy. -/
def jsonTruthy : Json → Bool
  | .null => false
  | .bool b => b
  | .num n => n ≠ 0
  | .float m _ => m ≠ 0
  | .special _ => true
  | .str s => s ≠ ""
  | .arr l => !l.isEmpty
  | .obj l => !l.isEmpty

/-- The integer that a decoded JSON value compares equal to under Python `==`
(used for dict-key membership against the integer-keyed pending table):
ints are themselves, `True`/`False` equal `1`/`0`, and a decimal float equals
an int when it denotes one exactly; strings and containers never equal ints. -/
def pyIntKey : Json → Option Int
  | .num n => some n
  | .bool b => some (if b then 1 else 0)
  | .float m e =>
    if 0 ≤ e then some (m * 10 ^ e.toNat)
    else if (10 : Int) ^ (-e).toNat ∣ m then some (m / 10 ^ (-e).toNat)
    else none
  | _ => none

/-- Python `==` between an optional decoded JSON value and an int literal
(`data.get("error", {}).get("code") == 401`). -/
def pyEqInt (v : Option Json) (m : Int) : Bool :=
  match v with
  | some j =>
    match pyIntKey j with
    | some n => n = m
    | none => false
  | none => false

/-- Python `str()` of a decoded JSON value, as interpolated by an f-string.
Exact for strings, ints, booleans and `None`; the float, array and object
renderings are approximations (the digest code only ever interpolates the
realm and nonce, which the protocol delivers as strings). -/
def pyStr : Json → String
  | .str s => s
  | .num n => toString n
  | .bool b => if b then "True" else "False"
  | .null => "None"
  | .float m e => toString m ++ "e" ++ toString e
  | .special s => if s = "NaN" then "nan" else if s = "Infinity" then "inf" else "-inf"
  | .arr _ => "[...]"
  | .obj _ => "\x7b...\x7d"

/-- JSON insignificant whitespace. -/
def isJsonWs (c : Char) : Bool :=
  c = ' ' || c = '\t' || c = '\n' || c = '\r'

/-- Skip insignificant whitespace. -/
def skipWs : List Char → List Char
  | [] => []
  | c :: rest => if isJsonWs c then skipWs rest else c :: rest

/-- Value of a hex digit. -/
def hexVal (c : Char) : Option Nat :=
  if '0' ≤ c ∧ c ≤ '9' then some (c.toNat - '0'.toNat)
  else if 'a' ≤ c ∧ c ≤ 'f' then some (c.toNat - 'a'.toNat + 10)
  else if 'A' ≤ c ∧ c ≤ 'F' then some (c.toNat - 'A'.toNat + 10)
  else none

/-- Four hex digits of a `\u` escape. -/
def parseHex4 : List Char → Option (Nat × List Char)
  | c1 :: c2 :: c3 :: c4 :: rest =>
    match hexVal c1, hexVal c2, hexVal c3, hexVal c4 with
    | some a, some b, some c, some d => some (((a * 16 + b) * 16 + c) * 16 + d, rest)
    | _, _, _, _ => none
  | _ => none

/-- Body of a JSON string literal after the opening quote.  Control characters
are rejected; escapes are decoded (`\u` surrogate pairing is not modelled,
each unit becomes one character). -/
def parseStrBody (fuel : Nat) (cs : List Char) (acc : List Char) : Option (String × List Char) :=
  match fuel with
  | 0 => none
  | fuel + 1 =>
    match cs with
    | [] => none
    | '"' :: rest => some (String.mk acc.reverse, rest)
    | '\\' :: rest =>
      match rest with
      | '"' :: r2 => parseStrBody fuel r2 ('"' :: acc)
      | '\\' :: r2 => parseStrBody fuel r2 ('\\' :: acc)
      | '/' :: r2 => parseStrBody fuel r2 ('/' :: acc)
      | 'b' :: r2 => parseStrBody fuel r2 (Char.ofNat 8 :: acc)
      | 'f' :: r2 => parseStrBody fuel r2 (Char.ofNat 12 :: acc)
      | 'n' :: r2 => parseStrBody fuel r2 ('\n' :: acc)
      | 'r' :: r2 => parseStrBody fuel r2 ('\r' :: acc)
      | 't' :: r2 => parseStrBody fuel r2 ('\t' :: acc)
      | 'u' :: r2 =>
        match parseHex4 r2 with
        | some (n, r3) => parseStrBody fuel r3 (Char.ofNat n :: acc)
        | none => none
      | _ => none
    | c :: rest => if c.toNat < 32 then none else parseStrBody fuel rest (c :: acc)

/-- Leading decimal digits and the remainder. -/
def takeDigits : List Char → List Char × List Char
  | [] => ([], [])
  | c :: rest =>
    if c.isDigit then
      let (ds, r) := takeDigits rest
      (c :: ds, r)
    else ([], c :: rest)

/-- Numeric value of a digit string. -/
def digitsToNat (ds : List Char) : Nat :=
  ds.foldl (fun acc c => acc * 10 + (c.toNat - '0'.toNat)) 0

/-- A JSON number literal: optional minus, integer part, optional fraction and
exponent.  Pure integer literals decode to `Json.num`; the others decode to the
decimal `Json.float`. -/
def parseNumber (cs : List Char) : Option (Json × List Char) :=
  let (neg, cs1) := match cs with
    | '-' :: r => (true, r)
    | _ => (false, cs)
  match takeDigits cs1 with
  | ([], _) => none
  | (intDs, cs2) =>
    let (fracDs, cs3) := match cs2 with
      | '.' :: r =>
        match takeDigits r with
        | ([], _) => ([], '.' :: r)
        | (ds, r2) => (ds, r2)
      | _ => ([], cs2)
    let hasFrac : Bool := !fracDs.isEmpty
    let expRes : Option (Int × List Char) := match cs3 with
      | 'e' :: r | 'E' :: r =>
        let (eneg, r1) := match r with
          | '-' :: r2 => (true, r2)
          | '+' :: r2 => (false, r2)
          | _ => (false, r)
        match takeDigits r1 with
        | ([], _) => none
        | (eds, r2) => some (if eneg then -(digitsToNat eds : Int) else (digitsToNat eds : Int), r2)
      | _ => none
    let mantAbs : Nat := digitsToNat (intDs ++ fracDs)
    let mant : Int := if neg then -(mantAbs : Int) else (mantAbs : Int)
    match expRes with
    | some (ex, cs4) => some (.float mant (ex - (fracDs.length : Int)), cs4)
    | none =>
      if hasFrac then some (.float mant (-(fracDs.length : Int)), cs3)
      else
        match cs3 with
        | 'e' :: _ | 'E' :: _ => none
        | _ => some (.num mant, cs3)

/-- Does the input start with the given literal word? -/
def eatWord : List Char → List Char → Option (List Char)
  | [], cs => some cs
  | w :: ws, c :: cs => if c = w then eatWord ws cs else none
  | _ :: _, [] => none

mutual

/-- One JSON value (fuel-bounded recursive descent), returning the value and
the unconsumed remainder.  Models the grammar accepted by Python's
`json.loads`, including the non-standard `NaN`/`Infinity` tokens. -/
def parseValue (fuel : Nat) (cs : List Char) : Option (Json × List Char) :=
  match fuel with
  | 0 => none
  | fuel + 1 =>
    match skipWs cs with
    | [] => none
    | c :: rest =>
      match c with
      | '"' => (parseStrBody (rest.length + 1) rest []).map (fun p => (.str p.1, p.2))
      | '\x7b' =>
        match skipWs rest with
        | '\x7d' :: r2 => some (.obj [], r2)
        | r1 => parseMembers fuel r1 []
      | '[' =>
        match skipWs rest with
        | ']' :: r2 => some (.arr [], r2)
        | r1 => parseElems fuel r1 []
      | 't' => (eatWord ['r', 'u', 'e'] rest).map (fun r => (.bool true, r))
      | 'f' => (eatWord ['a', 'l', 's', 'e'] rest).map (fun r => (.bool false, r))
      | 'n' => (eatWord ['u', 'l', 'l'] rest).map (fun r => (.null, r))
      | 'N' => (eatWord ['a', 'N'] rest).map (fun r => (.special "NaN", r))
      | 'I' => (eatWord ['n', 'f', 'i', 'n', 'i', 't', 'y'] rest).map (fun r => (.special "Infinity", r))
      | '-' =>
        match rest with
        | 'I' :: r2 => (eatWord ['n', 'f', 'i', 'n', 'i', 't', 'y'] r2).map
            (fun r => (.special "-Infinity", r))
        | _ => parseNumber (c :: rest)
      | _ => if c.isDigit then parseNumber (c :: rest) else none

/-- Members of a JSON object after the opening brace (at least one). -/
def parseMembers (fuel : Nat) (cs : List Char) (acc : List (String × Json)) :
    Option (Json × List Char) :=
  match fuel with
  | 0 => none
  | fuel + 1 =>
    match skipWs cs with
    | '"' :: r1 =>
      match parseStrBody (r1.length + 1) r1 [] with
      | none => none
      | some (key, r2) =>
        match skipWs r2 with
        | ':' :: r3 =>
          match parseValue fuel r3 with
          | none => none
          | some (v, r4) =>
            match skipWs r4 with
            | ',' :: r5 => parseMembers fuel r5 ((key, v) :: acc)
            | '\x7d' :: r5 => some (.obj ((key, v) :: acc).reverse, r5)
            | _ => none
        | _ => none
    | _ => none

/-- Elements of a JSON array after the opening bracket (at least one). -/
def parseElems (fuel : Nat) (cs : List Char) (acc : List Json) :
    Option (Json × List Char) :=
  match fuel with
  | 0 => none
  | fuel + 1 =>
    match parseValue fuel cs with
    | none => none
    | some (v, r1) =>
      match skipWs r1 with
      | ',' :: r2 => parseElems fuel r2 (v :: acc)
      | ']' :: r2 => some (.arr ((v :: acc).reverse), r2)
      | _ => none

end

/-- Model of Python's `json.loads`: decode one JSON document; `none` when the
decoder raises `json.JSONDecodeError` (including trailing garbage). -/
def json_loads (s : String) : Option Json :=
  match parseValue (s.length + 1) s.data with
  | some (v, rest) => if (skipWs rest).isEmpty then some v else none
  | none => none

/-- Is the decoded `method` field one of the push notification names
(`method in ("NotifyStatus", "NotifyEvent")`, line 232)? -/
def isPushMethod : Option Json → Bool
  | some (.str s) => s = "NotifyStatus" || s = "NotifyEvent"
  | _ => false

/-- Outcome of `if msg_id and msg_id in self._pending` (line 222): either no
match, a match against the pending key `i`, or a `TypeError` (a truthy
unhashable value — a list or dict — used in dict membership). -/
inductive IdMatch where
  | noMatch
  | matched (i : Nat)
  | err
deriving DecidableEq

/-- Evaluate `msg_id and msg_id in self._pending` for the decoded `id` field
against the set of pending request ids (all of which are positive ints). -/
def matchPending (pending : Finset Nat) (msgId : Option Json) : IdMatch :=
  match msgId with
  | none => .noMatch
  | some j =>
    if jsonTruthy j then
      match j with
      | .arr _ => .err
      | .obj _ => .err
      | _ =>
        match pyIntKey j with
        | some n =>
          if 0 < n ∧ n.toNat ∈ pending then .matched n.toNat else .noMatch
        | none => .noMatch
    else .noMatch

/-- One observable effect of `_handle_message`: a pending future resolved with
a result (`future.set_result`), resolved with an error
(`future.set_exception`), or a payload delivered via `self._on_update`. -/
inductive HandleOutput where
  | resolvedOk (id : Nat) (v : Json)
  | resolvedErr (id : Nat) (msg : Json)
  | push (d : Json)

/-- The pending id resolved by an output, if any. -/
def resolvesOf : HandleOutput → Option Nat
  | .resolvedOk i _ => some i
  | .resolvedErr i _ => some i
  | .push _ => none

/-- Is the output a delivery through the push callback `self._on_update`? -/
def isPushOut : HandleOutput → Bool
  | .push _ => true
  | _ => false

/-- The wrapped status update built on line 236:
`{"method": "NotifyStatus", "params": result}`. -/
def wrapStatus (result : Json) : Json :=
  .obj [("method", .str "NotifyStatus"), ("params", result)]

/-- Dispatch of one decoded message, translated from `_handle_message`
lines 216-236.  Returns the new pending-id set and the emitted effects, or
`none` when the Python code raises an exception that escapes the handler
(`.get` on a non-dict, hashing an unhashable id, `.get` on a non-dict error
value after the future was already popped). -/
def dispatch (pending : Finset Nat) (data : Json) : Option (Finset Nat × List HandleOutput) :=
  match data with
  | .obj kvs =>
    match matchPending pending (jget kvs "id") with
    | .err => none
    | .matched i =>
      match jget kvs "error" with
      | some (.obj ekvs) =>
        some (pending.erase i, [.resolvedErr i ((jget ekvs "message").getD (.str "RPC error"))])
      | some _ => none
      | none =>
        some (pending.erase i, [.resolvedOk i ((jget kvs "result").getD (.obj kvs))])
    | .noMatch =>
      if isPushMethod (jget kvs "method") then some (pending, [.push (.obj kvs)])
      else
        match jget kvs "result" with
        | some r => some (pending, [.push (wrapStatus r)])
        | none => some (pending, [])
  | _ => none

/-- `_handle_message` on a raw text frame (lines 208-236): unparseable JSON is
logged and discarded (lines 210-214) and the handler returns normally with no
effect; otherwise the decoded value is dispatched. -/
def handle_message (pending : Finset Nat) (raw : String) : Option (Finset Nat × List HandleOutput) :=
  match json_loads raw with
  | none => some (pending, [])
  | some data => dispatch pending data

/-- The read loop of `_connect` (lines 113-121) applied to a list of inbound
text frames: each is fed to `_handle_message`; an exception escaping the
handler tears the session down (`none`), otherwise effects accumulate. -/
def read_loop (pending : Finset Nat) : List String → Option (Finset Nat × List HandleOutput)
  | [] => some (pending, [])
  | raw :: rest =>
    match handle_message pending raw with
    | none => none
    | some (p1, outs) =>
      match read_loop p1 rest with
      | none => none
      | some (p2, outs2) => some (p2, outs ++ outs2)

/-- The digest computation of `_authenticate` (lines 151-156), parameterised
by the hex-encoded SHA-256 function.  `ts` is `str(time.time())`.  Returns the
generated client nonce and the response hash. -/
def computeAuthDigest (sha256hex : String → String)
    (username password realm nonce ts : String) : String × String :=
  let ha1 := sha256hex (username ++ ":" ++ realm ++ ":" ++ password)
  let ha2 := sha256hex "dummy_method:dummy_uri"
  let nc := "00000001"
  let cnonce := (sha256hex ts).take 8
  let response := sha256hex (ha1 ++ ":" ++ nonce ++ ":" ++ nc ++ ":" ++ cnonce ++ ":auth:" ++ ha2)
  (cnonce, response)

/-- Modelled from the spec: the claimed hash chain — HA1 = SHA-256 of
`username:realm:password`, HA2 = SHA-256 of the fixed placeholder pair
`dummy_method:dummy_uri`, response = SHA-256 of
`HA1:nonce:00000001:cnonce:auth:HA2` with the nonce count fixed at
`00000001`. -/
def specDigestChain (sha256hex : String → String)
    (username password realm nonce cnonce : String) : String :=
  let ha1 := sha256hex (username ++ ":" ++ realm ++ ":" ++ password)
  let ha2 := sha256hex ("dummy_method" ++ ":" ++ "dummy_uri")
  sha256hex (ha1 ++ ":" ++ nonce ++ ":" ++ "00000001" ++ ":" ++ cnonce ++ ":auth:" ++ ha2)

/-- Python `str.split(":")` on the text between separators. -/
def splitColonAux : List Char → List Char → List String
  | [], acc => [String.mk acc.reverse]
  | c :: rest, acc =>
    if c = ':' then String.mk acc.reverse :: splitColonAux rest []
    else splitColonAux rest (c :: acc)

/-- Model of Python's `auth_info.split(":")` (line 145). -/
def pySplitColon (s : String) : List String :=
  splitColonAux s.data []

/-- Challenge parsing of `_authenticate` (lines 142-149) for a string message:
try `json.loads` first; on decode failure split on `:` and use the first two
fields as realm and nonce; default the realm to the device host and the nonce
to `""`.  `none` models the `AttributeError` raised when `json.loads` yields a
non-dict. -/
def parseChallenge (host s : String) : Option (Json × Json) :=
  match json_loads s with
  | some (.obj akvs) =>
    some ((jget akvs "realm").getD (.str host), (jget akvs "nonce").getD (.str ""))
  | some _ => none
  | none =>
    let parts := pySplitColon s
    let akvs : List (String × Json) :=
      if 2 ≤ parts.length then
        [("realm", .str (parts.getD 0 "")), ("nonce", .str (parts.getD 1 ""))]
      else []
    some ((jget akvs "realm").getD (.str host), (jget akvs "nonce").getD (.str ""))

/-- The auth block built on lines 162-169. -/
def buildAuthObj (username : String) (realm nonce : Json) (cnonce response : String) : Json :=
  .obj [("realm", realm), ("username", .str username), ("nonce", nonce),
        ("cnonce", .str cnonce), ("response", .str response),
        ("algorithm", .str "SHA-256")]

/-- The second (authenticated) request payload of lines 158-170. -/
def authPayload (id2 : Nat) (username : String) (realm nonce : Json)
    (cnonce response : String) : Json :=
  .obj [("id", .num id2), ("src", .str "ha-client"),
        ("method", .str "Shelly.GetStatus"),
        ("auth", buildAuthObj username realm nonce cnonce response)]

/-- What `_authenticate` does with the first reply: send the authenticated
second request, hand a non-401 reply to `_handle_message`, or raise (the
exception escapes and the connection attempt fails). -/
inductive AuthAction where
  | sentAuth (payload : Json)
  | handledDirectly
  | raised

/-- The challenge-handling half of `_authenticate` (lines 136-175), applied to
the raw first reply.  `id2` is the id the second `_next_id()` call returns;
`ts` is `str(time.time())`.  Non-dict replies, a missing `message` field, a
non-string `message` and a non-dict decode of the message all raise. -/
def authenticate (host username password : String) (sha256hex : String → String)
    (ts : String) (id2 : Nat) (raw : String) : AuthAction :=
  match json_loads raw with
  | none => .raised
  | some data =>
    match data with
    | .obj kvs =>
      match (jget kvs "error").getD (.obj []) with
      | .obj ekvs =>
        if pyEqInt (jget ekvs "code") 401 then
          match jget ekvs "message" with
          | some (.str s) =>
            match parseChallenge host s with
            | some (realm, nonce) =>
              let d := computeAuthDigest sha256hex username password
                (pyStr realm) (pyStr nonce) ts
              .sentAuth (authPayload id2 username realm nonce d.1 d.2)
            | none => .raised
          | some _ => .raised
          | none => .raised
        else .handledDirectly
      | _ => .raised
    | _ => .raised

/-- `_next_id` (lines 177-179): increment `_msg_id` and return it.
Result is `(returned id, new counter value)`. -/
def next_id (msgId : Nat) : Nat × Nat :=
  (msgId + 1, msgId + 1)

/-- Events over one client's lifetime that touch (or could be suspected of
touching) the id counter: an id allocation (`_next_id`, called from
`_authenticate` and `_send_rpc`), and a reconnect (`_connect` run by
`_connection_loop`, which touches `_ws` and `_connected` but not `_msg_id`;
only `__init__` — process start — sets `_msg_id = 0`). -/
inductive ClientEvent where
  | allocId
  | reconnect
deriving DecidableEq

/-- The ids handed out over a lifetime, threading the `_msg_id` counter. -/
def allocIds (msgId : Nat) : List ClientEvent → List Nat
  | [] => []
  | .allocId :: es =>
    let r := next_id msgId
    r.1 :: allocIds r.2 es
  | .reconnect :: es => allocIds msgId es

/-- The mutable fields of `ShellyWebSocketClient` set in `__init__`
(lines 39-46), with the task/socket/session handles modelled as liveness
flags and the pending dict as its key set. -/
structure ClientState where
  running : Bool
  connected : Bool
  wsOpen : Bool
  sessionOpen : Bool
  taskActive : Bool
  heartbeatActive : Bool
  msgId : Nat
  pending : Finset Nat

/-- `call` up to registration (lines 194-201): fail with `ConnectionError`
when not connected or the socket handle is gone; otherwise allocate an id via
`_send_rpc`/`_next_id`, send, and register the future under that id. -/
def callIssue (s : ClientState) : Option (ClientState × Nat) :=
  if s.connected ∧ s.wsOpen then
    let id := s.msgId + 1
    some ({ s with msgId := id, pending := insert id s.pending }, id)
  else none

/-- The per-call timeout of `call` (line 203). -/
def rpcCallTimeout : Nat := 10

/-- The timeout branch of `call` (lines 204-206): pop the pending entry and
raise `TimeoutError` with this message. -/
def callExpire (s : ClientState) (id : Nat) (method : String) : ClientState × String :=
  ({ s with pending := s.pending.erase id }, "RPC call " ++ method ++ " timed out")

/-- `stop` (lines 61-72): clear the running flag, cancel the loop and
heartbeat tasks, close the socket and the HTTP session, clear the
connected flag.  `_msg_id` and `_pending` are not touched. -/
def stop (s : ClientState) : ClientState :=
  { s with running := false, heartbeatActive := false, taskActive := false,
           wsOpen := false, sessionOpen := false, connected := false }

/-- Where one connection attempt stands inside `_connect`/`_authenticate`:
no live socket; socket open (line 98-111, before any handshake traffic);
auth probe sent, challenge awaited (lines 126-135); handshake traffic done,
read loop entered (line 113). -/
inductive Phase where
  | idle
  | opened
  | authSent
  | ready
deriving DecidableEq

/-- The connection-relevant state of one session attempt: whether credentials
are configured (immutable), the `_connected` flag, and the phase. -/
structure SessionState where
  hasCreds : Bool
  connected : Bool
  phase : Phase
deriving DecidableEq

/-- Atomic steps of `_connect`/`_authenticate`/the read loop, one per stretch
of code between await points:
* `sockOpen` — `ws_connect` succeeds: line 99-100 stores the socket and sets
  `_connected = True` (before any authentication);
* `probe` — credentials configured: the unauthenticated probe of lines
  126-132 is sent;
* `challengeReply` — the reply of line 135 arrives and lines 136-175 run
  (auth payload sent, or non-401 handled directly); the session proceeds to
  the read loop;
* `fetchNoCreds` — no credentials: the initial `Shelly.GetStatus` of line 111
  is sent and the read loop is entered;
* `sessEnd` — the session ends for any reason and `_connection_loop` lines
  84-87 clear `_connected`. -/
inductive SessionStep : SessionState → SessionState → Prop
  | sockOpen (c b : Bool) :
      SessionStep ⟨c, b, .idle⟩ ⟨c, true, .opened⟩
  | probe (b : Bool) :
      SessionStep ⟨true, b, .opened⟩ ⟨true, b, .authSent⟩
  | challengeReply (b : Bool) :
      SessionStep ⟨true, b, .authSent⟩ ⟨true, b, .ready⟩
  | fetchNoCreds (b : Bool) :
      SessionStep ⟨false, b, .opened⟩ ⟨false, b, .ready⟩
  | sessEnd (c b : Bool) (p : Phase) (h : p ≠ .idle) :
      SessionStep ⟨c, b, p⟩ ⟨c, false, .idle⟩

/-- States reachable from the freshly constructed client
(`__init__` sets `_connected = False`; no session). -/
def SessionReachable (hasCreds : Bool) (s : SessionState) : Prop :=
  Relation.ReflTransGen SessionStep ⟨hasCreds, false, .idle⟩ s

/-- Has a live session completed its initial handshake, in the sense of the
spec invariant: authenticated when credentials exist, otherwise immediately
after socket open? -/
def handshakeDone (s : SessionState) : Bool :=
  if s.hasCreds then s.phase = Phase.ready
  else s.phase ≠ Phase.idle

/-- The spec's invariant as stated: `connected` iff a live session has
completed its initial handshake. -/
def specConnectedInv (s : SessionState) : Prop :=
  s.connected = true ↔ handshakeDone s = true

/-- `WS_RECONNECT_INTERVAL` from `const.py`. -/
def wsReconnectInterval : Nat := 10

/-- Outcome of one `_connect` attempt as seen by `_connection_loop`: the
attempt failed before the socket opened (`_connected` never set), or the
socket opened (`_connected` set `True` on line 100) and the session later
ended. -/
inductive Attempt where
  | failEarly
  | okThenDrop
deriving DecidableEq

/-- `_connection_loop` (lines 74-90) over a list of attempt outcomes, starting
from `_connected = c`: returns the number of `on_disconnected` notifications
fired (lines 84-87 fire exactly when `_connected` is set, then clear it) and
the total units slept (line 90: `WS_RECONNECT_INTERVAL` after every
attempt while running). -/
def runLoop (c : Bool) : List Attempt → Nat × Nat
  | [] => (0, 0)
  | a :: rest =>
    let connAfterAttempt := match a with
      | .okThenDrop => true
      | .failEarly => c
    let firedHere := if connAfterAttempt then 1 else 0
    let r := runLoop false rest
    (firedHere + r.1, wsReconnectInterval + r.2)

/-- What the claim predicts the loop fires: one `on_disconnected` per failed
attempt occurring after a prior successful connect. -/
def failsAfterFirstOk : List Attempt → Nat
  | [] => 0
  | .okThenDrop :: rest => rest.count .failEarly
  | .failEarly :: rest => failsAfterFirstOk rest

theorem pairwiseLtRange' : ∀ (n s : Nat), List.Pairwise (· < ·) (List.range' s n)
  | 0, _ => List.Pairwise.nil
  | n + 1, s => by
    rw [List.range'_succ]
    refine List.Pairwise.cons (fun b hb => ?_) (pairwiseLtRange' n (s + 1))
    have := List.mem_range'_1.mp hb
    omega

theorem allocIds_eq_range' : ∀ (es : List ClientEvent) (n : Nat),
    allocIds n es = List.range' (n + 1) (es.count .allocId)
  | [], _ => rfl
  | .allocId :: es, n => by
    simp only [allocIds, next_id, List.count_cons, allocIds_eq_range' es (n + 1)]
    rw [show (es.count ClientEvent.allocId + if ClientEvent.allocId == ClientEvent.allocId
      then 1 else 0) = es.count ClientEvent.allocId + 1 by simp, List.range'_succ]
  | .reconnect :: es, n => by
    simp only [allocIds, List.count_cons, allocIds_eq_range' es n]
    simp

/-- C5: Given fixed username, password, realm, nonce and timestamp (hence a
fixed client nonce), the digest computed by `_authenticate` equals the
spec's hash chain HA1 = SHA-256(username:realm:password), HA2 = SHA-256 of the
fixed placeholder pair dummy_method:dummy_uri, response =
SHA-256(HA1:nonce:00000001:cnonce:auth:HA2), with the nonce count fixed at
00000001.  Determinism is immediate: `computeAuthDigest` is a pure function of
its arguments. -/
theorem digest_matches_spec_chain (sha256hex : String → String)
    (username password realm nonce ts : String) :
    (computeAuthDigest sha256hex username password realm nonce ts).2 =
      specDigestChain sha256hex username password realm nonce
        (computeAuthDigest sha256hex username password realm nonce ts).1 := by
  simp only [computeAuthDigest, specDigestChain]
  rw [show ("dummy_method" ++ ":" ++ "dummy_uri" : String) = "dummy_method:dummy_uri" from rfl]

/-- C10: `stop()` leaves the pending-request table (and the id counter)
untouched; its effects are exactly to clear the running flag, cancel the loop
and heartbeat tasks, close the socket and HTTP session, and clear the
connected flag.  Pending requests at that moment therefore remain registered,
to be failed only later by their own per-call timeout. -/
theorem stop_preserves_pending (s : ClientState) :
    (stop s).pending = s.pending ∧ (stop s).msgId = s.msgId ∧
    (stop s).running = false ∧ (stop s).connected = false ∧
    (stop s).wsOpen = false ∧ (stop s).sessionOpen = false ∧
    (stop s).taskActive = false ∧ (stop s).heartbeatActive = false :=
  ⟨rfl, rfl, rfl, rfl, rfl, rfl, rfl, rfl⟩

/-- C3: over any lifetime of allocations and reconnects, the ids handed out by
`_next_id` are exactly 1, 2, 3, … in order: strictly increasing positive
integers starting from 1, never reused, with reconnects not resetting the
counter (only `__init__`, i.e. process start, zeroes it). -/
theorem ids_strictly_increasing (es : List ClientEvent) :
    allocIds 0 es = List.range' 1 (es.count .allocId) ∧
    List.Pairwise (· < ·) (allocIds 0 es) ∧
    (∀ i ∈ allocIds 0 es, 1 ≤ i) ∧
    (allocIds 0 es).Nodup := by
  have h := allocIds_eq_range' es 0
  refine ⟨h, ?_, ?_, ?_⟩
  · rw [h]; exact pairwiseLtRange' _ _
  · intro i hi
    rw [h] at hi
    have := List.mem_range'_1.mp hi
    omega
  · rw [h]; exact List.nodup_range' _ _

/-- Witness for C3 at a concrete lifetime: an allocation, a reconnect, then
another allocation yield ids 1 and 2. -/
theorem ids_strictly_increasing_witness :
    allocIds 0 [.allocId, .reconnect, .allocId] = List.range' 1 2 ∧
    (1 : Nat) ≤ 1 :=
  ⟨(ids_strictly_increasing [.allocId, .reconnect, .allocId]).1,
   (ids_strictly_increasing [.allocId, .reconnect, .allocId]).2.2.1 1 (by decide)⟩

/-- C1 counterexample: with credentials configured, one `sockOpen` step (line
100 of `_connect`) reaches a state where the authentication exchange has not
even begun, yet `_connected` is already `True` — refuting the claimed
invariant that `connected` holds only once the handshake has completed. -/
theorem connected_before_auth_cex :
    SessionReachable true ⟨true, true, .opened⟩ ∧
    ¬ specConnectedInv ⟨true, true, .opened⟩ := by
  constructor
  · exact Relation.ReflTransGen.single (SessionStep.sockOpen true false)
  · intro h
    have h2 := h.mp rfl
    simp [handshakeDone] at h2

/-- C1 amended: in every reachable state, `connected` is true iff the session
has an open socket — it is set immediately after socket open (line 100),
before the authentication exchange when credentials are configured, and
cleared when the session ends. -/
theorem connected_iff_socket_open (hasCreds : Bool) (s : SessionState)
    (h : SessionReachable hasCreds s) :
    s.connected = true ↔ s.phase ≠ .idle := by
  unfold SessionReachable at h
  induction h with
  | refl => simp
  | tail _ hstep ih => cases hstep <;> simp_all

/-- Witness for the amended C1 at a concrete reachable state. -/
theorem connected_iff_socket_open_witness :
    ((⟨true, true, .opened⟩ : SessionState).connected = true ↔
      (⟨true, true, .opened⟩ : SessionState).phase ≠ .idle) :=
  connected_iff_socket_open true ⟨true, true, .opened⟩
    (Relation.ReflTransGen.single (SessionStep.sockOpen true false))

theorem runLoop_fired : ∀ tr : List Attempt,
    (runLoop false tr).1 = tr.count .okThenDrop
  | [] => rfl
  | a :: tr => by
    cases a <;> simp [runLoop, List.count_cons, runLoop_fired tr, Nat.add_comm]

theorem runLoop_slept : ∀ tr : List Attempt,
    (runLoop false tr).2 = wsReconnectInterval * tr.length
  | [] => rfl
  | a :: tr => by
    simp [runLoop, runLoop_slept tr, List.length_cons, Nat.mul_succ, Nat.add_comm]

/-- C9 counterexample: in the trace "successful connect that later drops, then
two failed attempts", the loop fires `on_disconnected` once (when the
connected session ends), not once per failed attempt occurring after the
prior successful connect (which would be two) — refuting the claim's
"fires once per failed attempt". -/
theorem loop_fires_per_failed_attempt_cex :
    (runLoop false [.okThenDrop, .failEarly, .failEarly]).1 = 1 ∧
    failsAfterFirstOk [.okThenDrop, .failEarly, .failEarly] = 2 ∧
    (runLoop false [.okThenDrop, .failEarly, .failEarly]).1 ≠
      failsAfterFirstOk [.okThenDrop, .failEarly, .failEarly] := by
  refine ⟨rfl, rfl, ?_⟩
  decide

/-- C9 amended: in every execution of the supervisor loop, `on_disconnected`
fires exactly once per attempt that successfully connected and then ended,
and never for attempts that failed before the socket opened — in particular
never before the first successful connect; the loop sleeps the fixed
10-unit reconnect interval after every attempt, retrying indefinitely. -/
theorem loop_disconnect_count (tr : List Attempt) :
    (runLoop false tr).1 = tr.count .okThenDrop ∧
    (runLoop false tr).2 = wsReconnectInterval * tr.length ∧
    ((∀ a ∈ tr, a = .failEarly) → (runLoop false tr).1 = 0) := by
  refine ⟨runLoop_fired tr, runLoop_slept tr, fun h => ?_⟩
  rw [runLoop_fired tr]
  exact List.count_eq_zero.mpr (fun hmem => by cases h _ hmem)

/-- Witness for the amended C9: a device unreachable for two attempts fires no
notification and sleeps 10 units per attempt. -/
theorem loop_disconnect_count_witness :
    (runLoop false [.failEarly, .failEarly]).1 = 0 ∧
    (runLoop false [.failEarly, .failEarly]).2 = 20 := by
  refine ⟨(loop_disconnect_count [.failEarly, .failEarly]).2.2 (by decide), ?_⟩
  have h := (loop_disconnect_count [.failEarly, .failEarly]).2.1
  simpa [wsReconnectInterval] using h

/-- C7: an inbound text frame that is not parseable as JSON is logged and
discarded: `_handle_message` returns normally with the pending table and
output stream untouched, the session is not terminated, and the read loop
processes the remaining frames exactly as if the malformed one had not
arrived. -/
theorem malformed_frame_discarded (pending : Finset Nat) (raw : String)
    (rest : List String) (h : json_loads raw = none) :
    handle_message pending raw = some (pending, []) ∧
    read_loop pending (raw :: rest) = read_loop pending rest := by
  have h1 : handle_message pending raw = some (pending, []) := by
    unfold handle_message
    rw [h]
  refine ⟨h1, ?_⟩
  simp only [read_loop]
  rw [h1]
  cases h2 : read_loop pending rest with
  | none => simp [h2]
  | some p => cases p with
    | mk p2 outs2 => simp [h2]

/-- Witness for C7: a garbage frame is dropped and a well-formed push frame
after it is still delivered. -/
theorem malformed_frame_discarded_witness :
    json_loads "not json" = none ∧
    read_loop ∅ ["not json", "\x7b\"method\":\"NotifyStatus\"\x7d"] =
      read_loop ∅ ["\x7b\"method\":\"NotifyStatus\"\x7d"] ∧
    read_loop ∅ ["\x7b\"method\":\"NotifyStatus\"\x7d"] =
      some (∅, [.push (.obj [("method", .str "NotifyStatus")])]) :=
  ⟨rfl, (malformed_frame_discarded ∅ "not json"
    ["\x7b\"method\":\"NotifyStatus\"\x7d"] rfl).2, rfl⟩

/-- C8 counterexample: the frame `{"method": "NotifyStatus", "result": 5}`
carries a result and matches no pending request, yet `_handle_message`
delivers it raw through the push callback (line 232-233 checks the push
method name first), not wrapped as
`{"method": "NotifyStatus", "params": 5}`. -/
theorem bare_result_wrapped_cex :
    dispatch ∅ (.obj [("method", .str "NotifyStatus"), ("result", .num 5)]) =
      some (∅, [.push (.obj [("method", .str "NotifyStatus"), ("result", .num 5)])]) ∧
    dispatch ∅ (.obj [("method", .str "NotifyStatus"), ("result", .num 5)]) ≠
      some (∅, [.push (wrapStatus (.num 5))]) := by
  refine ⟨rfl, fun h => ?_⟩
  have h2 := congrArg (fun o => match o with
    | some (_, [HandleOutput.push (Json.obj (_ :: (k2, _) :: _))]) => k2
    | _ => "") h
  exact absurd h2 (by decide)

/-- C8 amended: a frame that carries a result, matches no pending request,
and does not carry a push method name (`NotifyStatus`/`NotifyEvent`) is
delivered through the push callback wrapped exactly as
`{"method": "NotifyStatus", "params": result}`; a frame that also carries a
push method name is instead delivered raw. -/
theorem bare_result_wrapped (pending : Finset Nat) (kvs : List (String × Json))
    (r : Json) (h1 : matchPending pending (jget kvs "id") = .noMatch)
    (h2 : isPushMethod (jget kvs "method") = false)
    (h3 : jget kvs "result" = some r) :
    dispatch pending (.obj kvs) = some (pending, [.push (wrapStatus r)]) := by
  simp only [dispatch]
  rw [h1]
  simp only [h2, h3, Bool.false_eq_true, if_false]

/-- Witness for the amended C8: the no-credentials initial `Shelly.GetStatus`
response `{"id": 1, "result": {"output": true}}` arriving with no pending
entry (it was sent via `_send_rpc`, which registers nothing) is delivered
wrapped. -/
theorem bare_result_wrapped_witness :
    dispatch ∅ (.obj [("id", .num 1), ("result", .obj [("output", .bool true)])]) =
      some (∅, [.push (wrapStatus (.obj [("output", .bool true)]))]) :=
  bare_result_wrapped ∅ [("id", .num 1), ("result", .obj [("output", .bool true)])]
    (.obj [("output", .bool true)]) (by decide) (by decide) rfl

theorem matchPending_noMatch_of_not_mem (p : Finset Nat) (n : Nat) (hn : 0 < n)
    (hmem : n ∉ p) : matchPending p (some (.num (n : Int))) = .noMatch := by
  have h1 : ((n : Int) ≠ 0) := by omega
  have h2 : ¬(0 < (n : Int) ∧ ((n : Int)).toNat ∈ p) := by
    rintro ⟨-, hc⟩
    rw [Int.toNat_natCast] at hc
    exact hmem hc
  simp only [matchPending, jsonTruthy, pyIntKey]
  simp [h1, h2]
  exact fun _ => hmem

/-- C2: an inbound decoded frame whose id matches an entry in the pending
table resolves exactly that entry exactly once — with the result on success
(defaulting to the whole frame), with the error message on an error object —
removes the entry, and delivers nothing through the push callback, regardless
of any push method name the frame may also carry: the pending match alone
decides the dispatch. -/
theorem response_resolves_pending (pending : Finset Nat)
    (kvs : List (String × Json)) (i : Nat)
    (hm : matchPending pending (jget kvs "id") = .matched i)
    (he : ∀ e, jget kvs "error" = some e → ∃ ekvs, e = Json.obj ekvs) :
    ∃ out, dispatch pending (.obj kvs) = some (pending.erase i, [out]) ∧
      resolvesOf out = some i ∧ isPushOut out = false ∧
      (jget kvs "error" = none →
        out = .resolvedOk i ((jget kvs "result").getD (.obj kvs))) ∧
      (∀ ekvs, jget kvs "error" = some (.obj ekvs) →
        out = .resolvedErr i ((jget ekvs "message").getD (.str "RPC error"))) := by
  simp only [dispatch]
  rw [hm]
  cases herr : jget kvs "error" with
  | none =>
    refine ⟨.resolvedOk i ((jget kvs "result").getD (.obj kvs)),
      rfl, rfl, rfl, fun _ => rfl, fun ekvs h2 => Option.noConfusion h2⟩
  | some e =>
    obtain ⟨ekvs, rfl⟩ := he e herr
    refine ⟨.resolvedErr i ((jget ekvs "message").getD (.str "RPC error")),
      rfl, rfl, rfl, fun h2 => Option.noConfusion h2, ?_⟩
    intro ekvs2 h2
    have h3 := Json.obj.inj (Option.some.inj h2)
    rw [h3]

/-- Witness for C2: with request 3 pending, the frame
`{"id": 3, "method": "NotifyStatus", "result": 7}` — which even carries a push
method name — resolves call 3 with result 7 and is not pushed. -/
theorem response_resolves_pending_witness :
    dispatch {3} (.obj [("id", .num 3), ("method", .str "NotifyStatus"),
        ("result", .num 7)]) =
      some (({3} : Finset Nat).erase 3, [.resolvedOk 3 (.num 7)]) := by
  obtain ⟨out, hdisp, hres, hpush, hok, herr⟩ :=
    response_resolves_pending {3}
      [("id", .num 3), ("method", .str "NotifyStatus"), ("result", .num 7)] 3
      (by decide) (fun e h => Option.noConfusion h)
  rw [hok rfl] at hdisp
  exact hdisp

/-- C4: a `call()` whose response never arrives times out after the fixed
10-unit deadline: the timeout branch removes the call's entry from the
pending table and fails the call with a timeout error; any frame carrying
that id arriving afterwards finds no pending entry, leaves the pending table
unchanged, and resolves no call. -/
theorem call_timeout_removes_pending (s : ClientState) (s1 : ClientState)
    (id : Nat) (h : callIssue s = some (s1, id)) :
    rpcCallTimeout = 10 ∧
    (∀ method, (callExpire s1 id method).1.pending = s1.pending.erase id ∧
      id ∉ (callExpire s1 id method).1.pending ∧
      (callExpire s1 id method).2 = "RPC call " ++ method ++ " timed out") ∧
    (∀ kvs, jget kvs "id" = some (.num id) →
      ∃ outs, dispatch (s1.pending.erase id) (.obj kvs) =
          some (s1.pending.erase id, outs) ∧
        outs.filterMap resolvesOf = []) := by
  unfold callIssue at h
  split at h
  case isFalse => exact Option.noConfusion h
  case isTrue hcw =>
    simp only [Option.some.injEq, Prod.mk.injEq] at h
    obtain ⟨hs1, hid⟩ := h
    subst hid
    refine ⟨rfl, fun method => ⟨rfl, Finset.not_mem_erase _ _, rfl⟩, ?_⟩
    intro kvs hkvs
    have hmatch : matchPending (s1.pending.erase (s.msgId + 1)) (jget kvs "id") =
        .noMatch := by
      rw [hkvs]
      exact matchPending_noMatch_of_not_mem _ _ (Nat.succ_pos _)
        (Finset.not_mem_erase _ _)
    simp only [dispatch]
    rw [hmatch]
    cases hb : isPushMethod (jget kvs "method") with
    | true => exact ⟨[.push (.obj kvs)], by simp [hb], rfl⟩
    | false =>
      cases hr : jget kvs "result" with
      | some r => exact ⟨[.push (wrapStatus r)], by simp [hb, hr], rfl⟩
      | none => exact ⟨[], by simp [hb, hr], rfl⟩

/-- Witness for C4: from a connected client with no calls in flight, issue
call 1, let it time out, then deliver the late response `{"id": 1,
"result": 0}`: the pending table stays empty and nothing is resolved (the
late frame is re-routed as a wrapped push). -/
theorem call_timeout_removes_pending_witness :
    (callExpire
        ({ running := true, connected := true, wsOpen := true,
           sessionOpen := true, taskActive := true, heartbeatActive := true,
           msgId := 1, pending := {1} } : ClientState) 1 "Shelly.Reboot").1.pending =
      ({1} : Finset Nat).erase 1 ∧
    dispatch (({1} : Finset Nat).erase 1) (.obj [("id", .num 1), ("result", .num 0)]) =
      some (({1} : Finset Nat).erase 1, [.push (wrapStatus (.num 0))]) := by
  have h := call_timeout_removes_pending
    ({ running := true, connected := true, wsOpen := true, sessionOpen := true,
       taskActive := true, heartbeatActive := true, msgId := 0, pending := ∅ } :
      ClientState)
    ({ running := true, connected := true, wsOpen := true, sessionOpen := true,
       taskActive := true, heartbeatActive := true, msgId := 1, pending := {1} } :
      ClientState) 1 rfl
  exact ⟨(h.2.1 "Shelly.Reboot").1, rfl⟩

/-- C6: on a 401 first reply, the negotiator parses the challenge by trying
structured JSON parsing first and, on failure, splitting on `:` with the
first field as realm and the second as nonce, defaulting the realm to the
device host when absent; in particular the message `"myrealm:abc123"` yields
realm `myrealm` and nonce `abc123`, and the second request's auth object
carries exactly those values. -/
theorem auth_challenge_parsing (host username password : String)
    (sha256hex : String → String) (ts : String) (id2 : Nat) :
    (∀ s, json_loads s = none →
      parseChallenge host s =
        (if 2 ≤ (pySplitColon s).length then
          some (.str ((pySplitColon s).getD 0 ""), .str ((pySplitColon s).getD 1 ""))
        else some (.str host, .str ""))) ∧
    authenticate host username password sha256hex ts id2
        "\x7b\"error\":\x7b\"code\":401,\"message\":\"myrealm:abc123\"\x7d\x7d" =
      .sentAuth (authPayload id2 username (.str "myrealm") (.str "abc123")
        (computeAuthDigest sha256hex username password "myrealm" "abc123" ts).1
        (computeAuthDigest sha256hex username password "myrealm" "abc123" ts).2) ∧
    authenticate host username password sha256hex ts id2
        "\x7b\"error\":\x7b\"code\":401,\"message\":\"\x7b\\\"nonce\\\":\\\"xyz\\\"\x7d\"\x7d\x7d" =
      .sentAuth (authPayload id2 username (.str host) (.str "xyz")
        (computeAuthDigest sha256hex username password host "xyz" ts).1
        (computeAuthDigest sha256hex username password host "xyz" ts).2) := by
  refine ⟨?_, ?_, ?_⟩
  · intro s h
    unfold parseChallenge
    rw [h]
    by_cases hp : 2 ≤ (pySplitColon s).length
    · rw [if_pos hp]
      simp only [if_pos hp]
      rfl
    · rw [if_neg hp]
      simp only [if_neg hp]
      rfl
  · rfl
  · rfl

/-- Witness for C6: concrete host/credentials/hash, the scenario message
`"myrealm:abc123"` parsed via the fallback, and the full 401 exchange. -/
theorem auth_challenge_parsing_witness :
    parseChallenge "192.0.2.1" "myrealm:abc123" =
      some (.str "myrealm", .str "abc123") ∧
    authenticate "192.0.2.1" "admin" "secret" (fun s => s) "1700000000.0" 2
        "\x7b\"error\":\x7b\"code\":401,\"message\":\"myrealm:abc123\"\x7d\x7d" =
      .sentAuth (authPayload 2 "admin" (.str "myrealm") (.str "abc123")
        (computeAuthDigest (fun s => s) "admin" "secret" "myrealm" "abc123"
          "1700000000.0").1
        (computeAuthDigest (fun s => s) "admin" "secret" "myrealm" "abc123"
          "1700000000.0").2) := by
  constructor
  · have h := (auth_challenge_parsing "192.0.2.1" "admin" "secret" (fun s => s)
      "1700000000.0" 2).1 "myrealm:abc123" rfl
    rw [h]
    rfl
  · exact (auth_challenge_parsing "192.0.2.1" "admin" "secret" (fun s => s)
      "1700000000.0" 2).2.1
